import Mathlib

/-!
# cmd/llama/main.go: the bootstrap of the llama command-line tool

A shallow embedding of `main` and `runLlama`.  Every call that leaves the
function (the config file, the environment, the file system, the AWS session,
the store package, the command dispatcher) is answered by a `World`; the
function itself is a pure Lean function from the parsed flags and the world to
the list of calls and writes it made, in order, the way it ended, and the final
value of its local variable `state`.

Go semantics used by the embedding:
* `log.Fatal` / `log.Fatalf` print and call `os.Exit(1)`; deferred calls of the
  running function are not executed;
* a `panic` runs the deferred calls of the running function, last registered
  first, and then ends the process with status 2;
* a normal `return` evaluates its operand, then runs the deferred calls;
* `session.Must(s, err)` panics with `err` when `err != nil` and returns `s`
  otherwise;
* `subcommands.ExitStatus` is an `int`, so `int(status)` is `status`;
* `os.Exit(code)` ends the process with the low eight bits of `code` as its
  exit status.

Not modelled: the registration of the commands in `main`, a command line that
`flag.Parse` rejects, the error of `trace.Start` (which the source drops), and
what the commands do inside `subcommands.Execute`.
-/

namespace Llama

/-! ## Data model -/

/-- Fields of `cli.Config` read or written by `runLlama`. -/
structure Config where
  Region : String
  Store : String
deriving DecidableEq, Repr

/-- The one log level `runLlama` ever sets: `aws.LogDebugWithHTTPBody`. -/
inductive LogLevel where
  | LogDebugWithHTTPBody
deriving DecidableEq, Repr

/-- Fields of `aws.Config` touched by `runLlama`; `none` is a nil pointer,
that is, a field that was never set. -/
structure AwsConfig where
  Region : Option String
  LogLevel : Option LogLevel
deriving DecidableEq, Repr

/-- The value of `aws.NewConfig()`: nothing set. -/
def AwsConfig.NewConfig : AwsConfig := { Region := none, LogLevel := none }

/-- The method `(*aws.Config).WithRegion`. -/
def AwsConfig.WithRegion (c : AwsConfig) (region : String) : AwsConfig :=
  { c with Region := some region }

/-- The method `(*aws.Config).WithLogLevel`. -/
def AwsConfig.WithLogLevel (c : AwsConfig) (level : Llama.LogLevel) : AwsConfig :=
  { c with LogLevel := some level }

/-- A `*session.Session` handle, identified by a number. -/
structure AwsSession where
  id : Nat
deriving DecidableEq, Repr

/-- A `*s3store.Store` as returned by `s3store.FromSession`, identified by a
number. -/
structure S3Store where
  id : Nat
deriving DecidableEq, Repr

/-- A `*os.File` as returned by `os.Create`. -/
structure File where
  name : String
deriving DecidableEq, Repr

/-- Values of the interface `store.Store` that `runLlama` can build: the store
of `s3store.FromSession`, or the result of `store.LimitConcurrency` applied to a
store and a bound.  `store.LimitConcurrency` is kept symbolic: the term records
which store was wrapped, how often, and with which bound. -/
inductive ObjectStore where
  | s3 (s : S3Store)
  | LimitConcurrency (inner : ObjectStore) (n : Int)
deriving DecidableEq, Repr

/-- Fields of `cli.GlobalState` written by `runLlama`; `none` is the zero value
(nil). -/
structure GlobalState where
  Session : Option AwsSession
  Store : Option ObjectStore
deriving DecidableEq, Repr

/-- Contexts built by `main` and `runLlama`: `context.Background()`, the context
returned by `trace.NewTask`, and the context returned by `cli.WithState`, which
is kept symbolic and records the parent context and the attached state. -/
inductive Ctx where
  | Background
  | NewTask (parent : Ctx) (taskType : String)
  | WithState (parent : Ctx) (state : GlobalState)
deriving DecidableEq, Repr

/-- Values of the five flag variables when `flag.Parse` has returned: `none`
when the flag was not given on the command line. -/
structure Flags where
  region : Option String
  store : Option String
  debugAWS : Option Bool
  trace : Option String
  s3Concurrency : Option Int
deriving DecidableEq, Repr

/-- Answers of everything outside `runLlama`.  Errors are their messages. -/
structure World where
  /-- The result of `cli.ReadConfig(cli.ConfigPath())`. -/
  ReadConfig : Except String Config
  /-- The function `os.Getenv`. -/
  Getenv : String → String
  /-- The function `os.Create`. -/
  Create : String → Except String File
  /-- The function `session.NewSession`. -/
  NewSession : AwsConfig → Except String AwsSession
  /-- The function `s3store.FromSession`. -/
  FromSession : AwsSession → String → Except String S3Store
  /-- The function `subcommands.Execute`; an `ExitStatus` is an `int`. -/
  Execute : Ctx → Int

/-- Calls and writes performed by `runLlama`, as they appear in its log. -/
inductive Event where
  | flagParse
  | readConfig (res : Option Config)
  | getenv (name : String)
  | create (name : String) (res : Option File)
  | traceStart (f : File)
  | newTask (taskType : String)
  | withRegion (regionType : String)
  | newSession (cfg : AwsConfig) (res : Option AwsSession)
  | setSession (s : AwsSession)
  | fromSession (s : AwsSession) (address : String) (res : Option S3Store)
  | setStore (s : Option ObjectStore)
  | limitConcurrency (inner : Option ObjectStore) (n : Int)
  | withState (parent : Ctx) (state : GlobalState)
  | execute (ctx : Ctx)
  | taskEnd
  | traceStop
  | close (f : File)
  | logFatal (msg : String)
  | panic (msg : String)
  | osExit (code : Int)
deriving DecidableEq, Repr

/-- How a call of `runLlama` ends. -/
inductive Outcome where
  /-- The function returned `code` to `main`; deferred calls have run. -/
  | returned (code : Int)
  /-- The function called `log.Fatal`: the process exited with status 1 and no
  deferred call ran. -/
  | fatal
  /-- The function panicked: deferred calls have run, the process ends with
  status 2. -/
  | panicked
deriving DecidableEq, Repr

/-- A finished call of `runLlama`: the log, the outcome, the final value of the
local variable `state`. -/
structure Run where
  events : List Event
  outcome : Outcome
  state : GlobalState
deriving DecidableEq, Repr

/-! ## The program -/

/-- What the closure given to `trace.WithRegion` leaves behind when it returns:
its log, and the captured variables `state`, `ctx` and `err`. -/
structure InitResult where
  events : List Event
  state : GlobalState
  ctx : Ctx
  err : Option String

/-- The closure of `runLlama` run under `trace.WithRegion(ctx, "global-init", ...)`
(main.go lines 86-103).  `Except.error` is a panic of `session.Must`, with the
log up to it. -/
def globalInit (w : World) (regionOverride : String) (debugAWS : Bool)
    (storeConcurrency : Int) (cfg : Config) (ctx : Ctx) (state : GlobalState) :
    Except (List Event) InitResult :=
  let awscfg := AwsConfig.NewConfig
  let awscfg :=
    if regionOverride ≠ "" then awscfg.WithRegion regionOverride
    else if cfg.Region ≠ "" then awscfg.WithRegion cfg.Region
    else awscfg
  let awscfg :=
    if debugAWS then awscfg.WithLogLevel LogLevel.LogDebugWithHTTPBody else awscfg
  match w.NewSession awscfg with
  | .error e =>
    -- session.Must panics
    .error [Event.newSession awscfg none, Event.panic e]
  | .ok sess =>
    let state := { state with Session := some sess }
    let ev := [Event.newSession awscfg (some sess), Event.setSession sess]
    -- state.Store, err = s3store.FromSession(state.Session, cfg.Store)
    let res : Option S3Store × Option String :=
      match w.FromSession sess cfg.Store with
      | .ok s => (some s, none)
      | .error e => (none, some e)
    let err := res.2
    let state := { state with Store := res.1.map ObjectStore.s3 }
    let ev := ev ++ [Event.fromSession sess cfg.Store res.1, Event.setStore state.Store]
    let limited : GlobalState × List Event :=
      if storeConcurrency > 0 ∧ err = none then
        let wrapped := state.Store.map (fun s => ObjectStore.LimitConcurrency s storeConcurrency)
        ({ state with Store := wrapped },
          ev ++ [Event.limitConcurrency state.Store storeConcurrency, Event.setStore wrapped])
      else (state, ev)
    let state := limited.1
    let ev := limited.2
    let ctx1 := Ctx.WithState ctx state
    .ok { events := ev ++ [Event.withState ctx state], state := state, ctx := ctx1, err := err }

/-- The function `runLlama` (main.go lines 47-109). -/
def runLlama (w : World) (fl : Flags) (ctx : Ctx) : Run :=
  let state : GlobalState := { Session := none, Store := none }
  let regionOverride := fl.region.getD ""
  let storeOverride := fl.store.getD ""
  let debugAWS := fl.debugAWS.getD false
  let traceFile := fl.trace.getD ""
  let storeConcurrency := fl.s3Concurrency.getD 8
  let ev := [Event.flagParse]
  match w.ReadConfig with
  | .error e =>
    { events := ev ++ [Event.readConfig none, Event.logFatal ("reading config file: " ++ e)],
      outcome := Outcome.fatal, state := state }
  | .ok cfg =>
    let ev := ev ++ [Event.readConfig (some cfg)]
    let env : String × List Event :=
      if storeOverride = "" then
        (w.Getenv "LLAMA_OBJECT_STORE", ev ++ [Event.getenv "LLAMA_OBJECT_STORE"])
      else (storeOverride, ev)
    let storeOverride := env.1
    let ev := env.2
    let cfg := if storeOverride ≠ "" then { cfg with Store := storeOverride } else cfg
    -- the trace file: either a fatal error, or the log and the deferred calls
    let tr : Except (List Event) (List Event × List Event) :=
      if traceFile ≠ "" then
        match w.Create traceFile with
        | .error e =>
          .error (ev ++ [Event.create traceFile none, Event.logFatal ("open trace: " ++ e)])
        | .ok f =>
          -- defer f.Close(); trace.Start(f); defer trace.Stop()
          .ok (ev ++ [Event.create traceFile (some f), Event.traceStart f],
               [Event.traceStop, Event.close f])
      else .ok (ev, [])
    match tr with
    | .error ev => { events := ev, outcome := Outcome.fatal, state := state }
    | .ok (ev, deferred) =>
      -- ctx, task := trace.NewTask(ctx, "llama"); defer task.End()
      let ctx := Ctx.NewTask ctx "llama"
      let ev := ev ++ [Event.newTask "llama"]
      let deferred := Event.taskEnd :: deferred
      let ev := ev ++ [Event.withRegion "global-init"]
      match globalInit w regionOverride debugAWS storeConcurrency cfg ctx state with
      | .error evInit =>
        { events := ev ++ evInit ++ deferred, outcome := Outcome.panicked, state := state }
      | .ok r =>
        let ev := ev ++ r.events
        match r.err with
        | some e =>
          { events := ev ++ [Event.logFatal e], outcome := Outcome.fatal, state := r.state }
        | none =>
          let code := w.Execute r.ctx
          { events := ev ++ [Event.execute r.ctx] ++ deferred,
            outcome := Outcome.returned code, state := r.state }

/-- The exit status a parent reads after `os.Exit(code)`: the operating system
keeps the low eight bits of `code`, so 256 is read as 0, 300 as 44 and -1 as
255. -/
def exitStatus (code : Int) : Int := code % 256

/-- The end of the process: the log, which ends with the call of `os.Exit`, and
the exit status of the process. -/
structure Process where
  events : List Event
  exitCode : Int
deriving DecidableEq, Repr

/-- The function `main` (main.go lines 32-45), after the registration of the
commands: `runLlama` on the background context, then `os.Exit(code)`.  When
`runLlama` does not return, the process has ended inside it: `log.Fatal` calls
`os.Exit(1)`, a panic that nothing recovers ends in `exit(2)`. -/
def main (w : World) (fl : Flags) : Process :=
  let ctx := Ctx.Background
  let r := runLlama w fl ctx
  match r.outcome with
  | Outcome.returned code =>
    { events := r.events ++ [Event.osExit code], exitCode := exitStatus code }
  | Outcome.fatal => { events := r.events ++ [Event.osExit 1], exitCode := exitStatus 1 }
  | Outcome.panicked => { events := r.events ++ [Event.osExit 2], exitCode := exitStatus 2 }

/-! ## Values of the local variables -/

/-- The value of `storeOverride` after lines 67-69. -/
def storeOverrideOf (w : World) (fl : Flags) : String :=
  if fl.store.getD "" = "" then w.Getenv "LLAMA_OBJECT_STORE" else fl.store.getD ""

/-- The value of `cfg` after lines 70-72. -/
def cfgOf (w : World) (fl : Flags) (cfg : Config) : Config :=
  if storeOverrideOf w fl ≠ "" then { cfg with Store := storeOverrideOf w fl } else cfg

/-- The value of `awscfg` at line 96. -/
def awscfgOf (regionOverride : String) (debugAWS : Bool) (cfg : Config) : AwsConfig :=
  let awscfg := AwsConfig.NewConfig
  let awscfg :=
    if regionOverride ≠ "" then awscfg.WithRegion regionOverride
    else if cfg.Region ≠ "" then awscfg.WithRegion cfg.Region
    else awscfg
  if debugAWS then awscfg.WithLogLevel LogLevel.LogDebugWithHTTPBody else awscfg

/-- The store put in `state.Store` at lines 97-100 when `FromSession` returned `x`. -/
def storeOf (n : Int) (x : S3Store) : ObjectStore :=
  if n > 0 then ObjectStore.LimitConcurrency (ObjectStore.s3 x) n else ObjectStore.s3 x

/-! ## The log, piece by piece, and the five runs -/

/-- The log up to line 72 when the config file was read. -/
def preEvents (fl : Flags) (cfg : Config) : List Event :=
  [Event.flagParse, Event.readConfig (some cfg)] ++
    (if fl.store.getD "" = "" then [Event.getenv "LLAMA_OBJECT_STORE"] else [])

/-- The log of lines 73-81 when they do not fail: nothing when no trace was
asked for, else the creation of the file `f` and the start of the trace. -/
def traceEvents (fl : Flags) : Option File → List Event
  | none => []
  | some f => [Event.create (fl.trace.getD "") (some f), Event.traceStart f]

/-- The deferred calls in the order they run, last registered first:
`task.End()`, then, with a trace file `f`, `trace.Stop()` and `f.Close()`. -/
def deferredEvents : Option File → List Event
  | none => [Event.taskEnd]
  | some f => [Event.taskEnd, Event.traceStop, Event.close f]

/-- The log of lines 97-100 when `FromSession` returned `x`. -/
def storeEvents (n : Int) (x : S3Store) : List Event :=
  Event.setStore (some (ObjectStore.s3 x)) ::
    (if n > 0 then [Event.limitConcurrency (some (ObjectStore.s3 x)) n,
        Event.setStore (some (ObjectStore.LimitConcurrency (ObjectStore.s3 x) n))] else [])

/-- The log shared by the runs that enter the closure. -/
def initEvents (fl : Flags) (cfg : Config) (o : Option File) : List Event :=
  preEvents fl cfg ++ traceEvents fl o ++ [Event.newTask "llama", Event.withRegion "global-init"]

/-- The trace file `o` of a run that got past line 81: none when `-trace` is
empty, else the file that `os.Create` returned. -/
def TraceIs (w : World) (fl : Flags) (o : Option File) : Prop :=
  (fl.trace.getD "" = "" ∧ o = none) ∨
  (fl.trace.getD "" ≠ "" ∧ ∃ f, w.Create (fl.trace.getD "") = .ok f ∧ o = some f)

/-- The run that stops at the config file. -/
def runConfigError (e : String) : Run :=
  { events := [Event.flagParse, Event.readConfig none,
               Event.logFatal ("reading config file: " ++ e)],
    outcome := Outcome.fatal, state := { Session := none, Store := none } }

/-- The run that stops at the trace file. -/
def runTraceError (fl : Flags) (cfg : Config) (e : String) : Run :=
  { events := preEvents fl cfg ++ [Event.create (fl.trace.getD "") none,
               Event.logFatal ("open trace: " ++ e)],
    outcome := Outcome.fatal, state := { Session := none, Store := none } }

/-- The run in which `session.Must` panics. -/
def runSessionError (fl : Flags) (cfg : Config) (o : Option File) (e : String) : Run :=
  { events := initEvents fl cfg o ++
      [Event.newSession (awscfgOf (fl.region.getD "") (fl.debugAWS.getD false) cfg) none,
       Event.panic e] ++ deferredEvents o,
    outcome := Outcome.panicked, state := { Session := none, Store := none } }

/-- The run in which `s3store.FromSession` returns an error. -/
def runStoreError (w : World) (fl : Flags) (ctx : Ctx) (cfg : Config) (o : Option File)
    (s : AwsSession) (e : String) : Run :=
  { events := initEvents fl cfg o ++
      [Event.newSession (awscfgOf (fl.region.getD "") (fl.debugAWS.getD false) cfg) (some s),
       Event.setSession s, Event.fromSession s (cfgOf w fl cfg).Store none, Event.setStore none,
       Event.withState (Ctx.NewTask ctx "llama") { Session := some s, Store := none },
       Event.logFatal e],
    outcome := Outcome.fatal, state := { Session := some s, Store := none } }

/-- The run that reaches the dispatcher. -/
def runDispatch (w : World) (fl : Flags) (ctx : Ctx) (cfg : Config) (o : Option File)
    (s : AwsSession) (x : S3Store) : Run :=
  let st : GlobalState :=
    { Session := some s, Store := some (storeOf (fl.s3Concurrency.getD 8) x) }
  { events := initEvents fl cfg o ++
      [Event.newSession (awscfgOf (fl.region.getD "") (fl.debugAWS.getD false) cfg) (some s),
       Event.setSession s, Event.fromSession s (cfgOf w fl cfg).Store (some x)] ++
      storeEvents (fl.s3Concurrency.getD 8) x ++
      [Event.withState (Ctx.NewTask ctx "llama") st,
       Event.execute (Ctx.WithState (Ctx.NewTask ctx "llama") st)] ++ deferredEvents o,
    outcome := Outcome.returned (w.Execute (Ctx.WithState (Ctx.NewTask ctx "llama") st)),
    state := st }

/-- The five ways a call of `runLlama` can go. -/
inductive RunCase (w : World) (fl : Flags) (ctx : Ctx) : Prop where
  | configError (e : String) (h : w.ReadConfig = .error e)
      (hr : runLlama w fl ctx = runConfigError e)
  | traceError (cfg : Config) (e : String) (h : w.ReadConfig = .ok cfg)
      (ht : fl.trace.getD "" ≠ "") (hc : w.Create (fl.trace.getD "") = .error e)
      (hr : runLlama w fl ctx = runTraceError fl cfg e)
  | sessionError (cfg : Config) (o : Option File) (e : String) (h : w.ReadConfig = .ok cfg)
      (ht : TraceIs w fl o)
      (hs : w.NewSession (awscfgOf (fl.region.getD "") (fl.debugAWS.getD false) cfg) = .error e)
      (hr : runLlama w fl ctx = runSessionError fl cfg o e)
  | storeError (cfg : Config) (o : Option File) (s : AwsSession) (e : String)
      (h : w.ReadConfig = .ok cfg) (ht : TraceIs w fl o)
      (hs : w.NewSession (awscfgOf (fl.region.getD "") (fl.debugAWS.getD false) cfg) = .ok s)
      (hf : w.FromSession s (cfgOf w fl cfg).Store = .error e)
      (hr : runLlama w fl ctx = runStoreError w fl ctx cfg o s e)
  | dispatch (cfg : Config) (o : Option File) (s : AwsSession) (x : S3Store)
      (h : w.ReadConfig = .ok cfg) (ht : TraceIs w fl o)
      (hs : w.NewSession (awscfgOf (fl.region.getD "") (fl.debugAWS.getD false) cfg) = .ok s)
      (hf : w.FromSession s (cfgOf w fl cfg).Store = .ok x)
      (hr : runLlama w fl ctx = runDispatch w fl ctx cfg o s x)

/-! ## The words of the specification -/

/-- The store location as the specification words it: the flag when non-empty,
else the environment variable when non-empty, else the value of the file. -/
def specStoreLocation (f e c : String) : String :=
  if f ≠ "" then f else if e ≠ "" then e else c

/-- The region as the specification words it: the flag when non-empty, else the
region of the file when non-empty, else none. -/
def specRegion (r c : String) : Option String :=
  if r ≠ "" then some r else if c ≠ "" then some c else none

/-! ## Classes of log entries -/

/-- Calls of `store.LimitConcurrency`. -/
def Event.isLimitConcurrency : Event → Bool
  | Event.limitConcurrency _ _ => true
  | _ => false

/-- Calls of `cli.WithState`. -/
def Event.isWithState : Event → Bool
  | Event.withState _ _ => true
  | _ => false

/-- Writes to a field of the local variable `state`. -/
def Event.isStateWrite : Event → Bool
  | Event.setSession _ => true
  | Event.setStore _ => true
  | _ => false

/-! ## Sample inputs -/

/-- A world in which everything succeeds: the file has region `us-east-1` and
store `s3://c/q`, the environment has `LLAMA_OBJECT_STORE=s3://b/p`, the store
factory rejects the empty address, the command reports status 3. -/
def sampleWorld : World where
  ReadConfig := .ok { Region := "us-east-1", Store := "s3://c/q" }
  Getenv := fun n => if n = "LLAMA_OBJECT_STORE" then "s3://b/p" else ""
  Create := fun n => .ok { name := n }
  NewSession := fun _ => .ok { id := 1 }
  FromSession := fun _ a => if a = "" then .error "unsupported scheme" else .ok { id := 7 }
  Execute := fun _ => 3

/-- The command line `llama -region us-west-2`. -/
def sampleFlags : Flags :=
  { region := some "us-west-2", store := none, debugAWS := none, trace := none,
    s3Concurrency := none }

/-- The command line `llama -region us-west-2 -trace out.trace`. -/
def traceFlags : Flags := { sampleFlags with trace := some "out.trace" }

/-- A world whose config file cannot be read. -/
def brokenConfigWorld : World :=
  { sampleWorld with ReadConfig := .error "yaml: line 1: did not find expected key" }

/-- A world like `sampleWorld` in which no session can be built. -/
def sessionFailWorld : World :=
  { sampleWorld with NewSession := fun _ => .error "NoCredentialProviders" }

/-- A world like `sampleWorld` in which the store cannot be built. -/
def storeFailWorld : World :=
  { sampleWorld with FromSession := fun _ _ => .error "NoSuchBucket" }

/-- A world like `sampleWorld` in which the command reports status 256. -/
def wideStatusWorld : World :=
  { sampleWorld with Execute := fun _ => 256 }

/-- A world like `sampleWorld` with no store anywhere: the environment variable
is unset and the config file has an empty `Store`. -/
def emptyStoreWorld : World :=
  { sampleWorld with
    ReadConfig := .ok { Region := "us-east-1", Store := "" }
    Getenv := fun _ => "" }

/-! ## The closure -/

/-- The closure when `session.NewSession` fails: `session.Must` panics. -/
theorem globalInit_session_error (w : World) (r : String) (d : Bool) (n : Int) (cfg : Config)
    (ctx : Ctx) (st : GlobalState) (e : String)
    (hs : w.NewSession (awscfgOf r d cfg) = .error e) :
    globalInit w r d n cfg ctx st =
      .error [Event.newSession (awscfgOf r d cfg) none, Event.panic e] := by
  unfold globalInit
  unfold awscfgOf at hs
  simp only [hs]
  rfl

/-- The closure when `s3store.FromSession` fails: the limiter is skipped, the
state is attached all the same, and `err` is set. -/
theorem globalInit_store_error (w : World) (r : String) (d : Bool) (n : Int) (cfg : Config)
    (ctx : Ctx) (st : GlobalState) (s : AwsSession) (e : String)
    (hs : w.NewSession (awscfgOf r d cfg) = .ok s)
    (hf : w.FromSession s cfg.Store = .error e) :
    globalInit w r d n cfg ctx st =
      .ok { events := [Event.newSession (awscfgOf r d cfg) (some s), Event.setSession s,
                       Event.fromSession s cfg.Store none, Event.setStore none,
                       Event.withState ctx { Session := some s, Store := none }],
            state := { Session := some s, Store := none },
            ctx := Ctx.WithState ctx { Session := some s, Store := none },
            err := some e } := by
  unfold globalInit
  unfold awscfgOf at hs
  simp only [hs, hf]
  simp [awscfgOf]

/-- The closure when both the session and the store are built. -/
theorem globalInit_ok (w : World) (r : String) (d : Bool) (n : Int) (cfg : Config)
    (ctx : Ctx) (st : GlobalState) (s : AwsSession) (x : S3Store)
    (hs : w.NewSession (awscfgOf r d cfg) = .ok s)
    (hf : w.FromSession s cfg.Store = .ok x) :
    globalInit w r d n cfg ctx st =
      .ok { events := [Event.newSession (awscfgOf r d cfg) (some s), Event.setSession s,
                       Event.fromSession s cfg.Store (some x)] ++ storeEvents n x ++
                      [Event.withState ctx { Session := some s, Store := some (storeOf n x) }],
            state := { Session := some s, Store := some (storeOf n x) },
            ctx := Ctx.WithState ctx { Session := some s, Store := some (storeOf n x) },
            err := none } := by
  unfold globalInit
  unfold awscfgOf at hs
  simp only [hs, hf]
  by_cases hn : n > 0 <;> simp [awscfgOf, storeOf, storeEvents, hn]

/-! ## The five runs -/

/-- The run when the config file cannot be read. -/
theorem run_config_error (w : World) (fl : Flags) (ctx : Ctx) (e : String)
    (h : w.ReadConfig = .error e) :
    runLlama w fl ctx =
      { events := [Event.flagParse, Event.readConfig none,
                   Event.logFatal ("reading config file: " ++ e)],
        outcome := Outcome.fatal, state := { Session := none, Store := none } } := by
  unfold runLlama
  simp [h]

/-- The run when the trace file cannot be created. -/
theorem run_trace_error (w : World) (fl : Flags) (ctx : Ctx) (cfg : Config) (e : String)
    (h : w.ReadConfig = .ok cfg) (ht : fl.trace.getD "" ≠ "")
    (hc : w.Create (fl.trace.getD "") = .error e) :
    runLlama w fl ctx =
      { events := preEvents fl cfg ++ [Event.create (fl.trace.getD "") none,
                   Event.logFatal ("open trace: " ++ e)],
        outcome := Outcome.fatal, state := { Session := none, Store := none } } := by
  unfold runLlama preEvents
  by_cases hf : fl.store.getD "" = "" <;> simp [hf, h, hc, ht]

/-- The run past line 81, in terms of what the closure leaves behind. -/
theorem run_after_trace (w : World) (fl : Flags) (ctx : Ctx) (cfg : Config) (o : Option File)
    (h : w.ReadConfig = .ok cfg) (ht : TraceIs w fl o) :
    runLlama w fl ctx =
      match globalInit w (fl.region.getD "") (fl.debugAWS.getD false) (fl.s3Concurrency.getD 8)
          (cfgOf w fl cfg) (Ctx.NewTask ctx "llama") { Session := none, Store := none } with
      | .error evInit =>
        { events := preEvents fl cfg ++ traceEvents fl o ++
            [Event.newTask "llama", Event.withRegion "global-init"] ++ evInit ++ deferredEvents o,
          outcome := Outcome.panicked, state := { Session := none, Store := none } }
      | .ok r =>
        match r.err with
        | some e =>
          { events := preEvents fl cfg ++ traceEvents fl o ++
              [Event.newTask "llama", Event.withRegion "global-init"] ++ r.events ++
              [Event.logFatal e],
            outcome := Outcome.fatal, state := r.state }
        | none =>
          { events := preEvents fl cfg ++ traceEvents fl o ++
              [Event.newTask "llama", Event.withRegion "global-init"] ++ r.events ++
              [Event.execute r.ctx] ++ deferredEvents o,
            outcome := Outcome.returned (w.Execute r.ctx), state := r.state } := by
  unfold runLlama preEvents cfgOf storeOverrideOf
  rcases ht with ⟨ht, rfl⟩ | ⟨ht, f, hc, rfl⟩ <;> by_cases hf : fl.store.getD "" = ""
  · simp only [hf, h, ht, traceEvents, deferredEvents, ne_eq, not_true_eq_false,
      not_false_eq_true, if_true, if_false, List.append_assoc, List.cons_append, List.nil_append,
      List.append_nil]
  · simp only [hf, h, ht, traceEvents, deferredEvents, ne_eq, not_true_eq_false,
      not_false_eq_true, if_true, if_false, List.append_assoc, List.cons_append, List.nil_append,
      List.append_nil]
  · simp only [hf, h, ht, hc, traceEvents, deferredEvents, ne_eq, not_true_eq_false,
      not_false_eq_true, if_true, if_false, List.append_assoc, List.cons_append, List.nil_append,
      List.append_nil]
  · simp only [hf, h, ht, hc, traceEvents, deferredEvents, ne_eq, not_true_eq_false,
      not_false_eq_true, if_true, if_false, List.append_assoc, List.cons_append, List.nil_append,
      List.append_nil]

/-- Lines 67-72 leave `cfg.Region` alone. -/
theorem cfgOf_Region (w : World) (fl : Flags) (cfg : Config) :
    (cfgOf w fl cfg).Region = cfg.Region := by
  unfold cfgOf
  split <;> rfl

/-- The session configuration does not see the store override. -/
theorem awscfgOf_cfgOf (w : World) (fl : Flags) (cfg : Config) (r : String) (d : Bool) :
    awscfgOf r d (cfgOf w fl cfg) = awscfgOf r d cfg := by
  unfold awscfgOf
  simp only [cfgOf_Region]

/-- The run when the session cannot be built. -/
theorem run_session_error (w : World) (fl : Flags) (ctx : Ctx) (cfg : Config) (o : Option File)
    (e : String) (h : w.ReadConfig = .ok cfg) (ht : TraceIs w fl o)
    (hs : w.NewSession (awscfgOf (fl.region.getD "") (fl.debugAWS.getD false) cfg) = .error e) :
    runLlama w fl ctx = runSessionError fl cfg o e := by
  rw [run_after_trace w fl ctx cfg o h ht,
    globalInit_session_error w _ _ _ _ _ _ e (by rw [awscfgOf_cfgOf]; exact hs)]
  simp [runSessionError, initEvents, awscfgOf_cfgOf]

/-- The run when the store cannot be built. -/
theorem run_store_error (w : World) (fl : Flags) (ctx : Ctx) (cfg : Config) (o : Option File)
    (s : AwsSession) (e : String) (h : w.ReadConfig = .ok cfg) (ht : TraceIs w fl o)
    (hs : w.NewSession (awscfgOf (fl.region.getD "") (fl.debugAWS.getD false) cfg) = .ok s)
    (hf : w.FromSession s (cfgOf w fl cfg).Store = .error e) :
    runLlama w fl ctx = runStoreError w fl ctx cfg o s e := by
  rw [run_after_trace w fl ctx cfg o h ht,
    globalInit_store_error w _ _ _ _ _ _ s e (by rw [awscfgOf_cfgOf]; exact hs) hf]
  simp [runStoreError, initEvents, awscfgOf_cfgOf]

/-- The run when everything is built. -/
theorem run_dispatch (w : World) (fl : Flags) (ctx : Ctx) (cfg : Config) (o : Option File)
    (s : AwsSession) (x : S3Store) (h : w.ReadConfig = .ok cfg) (ht : TraceIs w fl o)
    (hs : w.NewSession (awscfgOf (fl.region.getD "") (fl.debugAWS.getD false) cfg) = .ok s)
    (hf : w.FromSession s (cfgOf w fl cfg).Store = .ok x) :
    runLlama w fl ctx = runDispatch w fl ctx cfg o s x := by
  rw [run_after_trace w fl ctx cfg o h ht,
    globalInit_ok w _ _ _ _ _ _ s x (by rw [awscfgOf_cfgOf]; exact hs) hf]
  simp [runDispatch, initEvents, awscfgOf_cfgOf]

/-- Every call of `runLlama` goes one of the five ways. -/
theorem run_cases (w : World) (fl : Flags) (ctx : Ctx) : RunCase w fl ctx := by
  cases h : w.ReadConfig with
  | error e => exact .configError e h (run_config_error w fl ctx e h)
  | ok cfg =>
    have key : ∀ o, TraceIs w fl o → RunCase w fl ctx := by
      intro o ht
      cases hs : w.NewSession (awscfgOf (fl.region.getD "") (fl.debugAWS.getD false) cfg) with
      | error e => exact .sessionError cfg o e h ht hs (run_session_error w fl ctx cfg o e h ht hs)
      | ok s =>
        cases hf : w.FromSession s (cfgOf w fl cfg).Store with
        | error e =>
          exact .storeError cfg o s e h ht hs hf (run_store_error w fl ctx cfg o s e h ht hs hf)
        | ok x =>
          exact .dispatch cfg o s x h ht hs hf (run_dispatch w fl ctx cfg o s x h ht hs hf)
    by_cases ht : fl.trace.getD "" = ""
    · exact key none (Or.inl ⟨ht, rfl⟩)
    · cases hc : w.Create (fl.trace.getD "") with
      | error e => exact .traceError cfg e h ht hc (run_trace_error w fl ctx cfg e h ht hc)
      | ok f => exact key (some f) (Or.inr ⟨ht, f, hc, rfl⟩)

/-- The `cfg.Store` of line 97 is the location of the specification. -/
theorem cfgOf_Store (w : World) (fl : Flags) (cfg : Config) :
    (cfgOf w fl cfg).Store =
      specStoreLocation (fl.store.getD "") (w.Getenv "LLAMA_OBJECT_STORE") cfg.Store := by
  unfold cfgOf storeOverrideOf specStoreLocation
  by_cases hf : fl.store.getD "" = "" <;> by_cases he : w.Getenv "LLAMA_OBJECT_STORE" = "" <;>
    simp [hf, he]

/-- The region of `awscfg` at line 96 is the region of the specification. -/
theorem awscfgOf_Region (r : String) (d : Bool) (cfg : Config) :
    (awscfgOf r d cfg).Region = specRegion r cfg.Region := by
  unfold awscfgOf specRegion AwsConfig.NewConfig AwsConfig.WithRegion AwsConfig.WithLogLevel
  by_cases hr : r = "" <;> by_cases hc : cfg.Region = "" <;> cases d <;> simp [hr, hc]

/-! ## Membership in the log -/

/-- The entries of `preEvents`. -/
theorem mem_preEvents (fl : Flags) (cfg : Config) (e : Event) :
    e ∈ preEvents fl cfg ↔ e = Event.flagParse ∨ e = Event.readConfig (some cfg) ∨
      (e = Event.getenv "LLAMA_OBJECT_STORE" ∧ fl.store.getD "" = "") := by
  unfold preEvents
  by_cases hf : fl.store.getD "" = "" <;> simp [hf]

/-- The entries of `traceEvents`. -/
theorem mem_traceEvents (fl : Flags) (o : Option File) (e : Event) :
    e ∈ traceEvents fl o ↔
      ∃ f, o = some f ∧ (e = Event.create (fl.trace.getD "") (some f) ∨ e = Event.traceStart f) := by
  cases o <;> simp [traceEvents]

/-- The entries of `deferredEvents`. -/
theorem mem_deferredEvents (o : Option File) (e : Event) :
    e ∈ deferredEvents o ↔
      e = Event.taskEnd ∨ ∃ f, o = some f ∧ (e = Event.traceStop ∨ e = Event.close f) := by
  cases o <;> simp [deferredEvents]

/-- The entries of `storeEvents`. -/
theorem mem_storeEvents (n : Int) (x : S3Store) (e : Event) :
    e ∈ storeEvents n x ↔ e = Event.setStore (some (ObjectStore.s3 x)) ∨
      (n > 0 ∧ (e = Event.limitConcurrency (some (ObjectStore.s3 x)) n ∨
        e = Event.setStore (some (ObjectStore.LimitConcurrency (ObjectStore.s3 x) n)))) := by
  unfold storeEvents
  by_cases hn : n > 0 <;> simp [hn]

/-- The entries of `initEvents`. -/
theorem mem_initEvents (fl : Flags) (cfg : Config) (o : Option File) (e : Event) :
    e ∈ initEvents fl cfg o ↔ e ∈ preEvents fl cfg ∨ e ∈ traceEvents fl o ∨
      e = Event.newTask "llama" ∨ e = Event.withRegion "global-init" := by
  simp [initEvents, or_assoc]

/-- A failed `session.NewSession` ends the run in a panic before any call of
`s3store.FromSession`. -/
theorem failed_session_stops_run (w : World) (fl : Flags) (ctx : Ctx) (c : AwsConfig)
    (h : Event.newSession c none ∈ (runLlama w fl ctx).events) :
    (runLlama w fl ctx).outcome = Outcome.panicked ∧
    ∀ s a r, Event.fromSession s a r ∉ (runLlama w fl ctx).events := by
  rcases run_cases w fl ctx with ⟨e, h1, hr⟩ | ⟨cfg1, e, h1, ht, hc, hr⟩ |
    ⟨cfg1, o, e, h1, ht, hs, hr⟩ | ⟨cfg1, o, s1, e, h1, ht, hs, hf, hr⟩ |
    ⟨cfg1, o, s1, x1, h1, ht, hs, hf, hr⟩
  all_goals
    rw [hr] at h ⊢
    simp only [runConfigError, runTraceError, runSessionError, runStoreError, runDispatch,
      List.mem_append, List.mem_cons, List.mem_singleton, mem_initEvents, mem_preEvents,
      mem_traceEvents, mem_deferredEvents, mem_storeEvents, List.mem_nil_iff] at h ⊢
    simp at h
  simp

/-! ## Configuration resolution (C1, C2, C7) -/

/-- C1: the address handed to `s3store.FromSession` is the flag when non-empty,
else `LLAMA_OBJECT_STORE` when non-empty, else the `Store` of the config file;
the factory is called with it whenever a session was built; with a non-empty
flag the address is the flag whatever the environment and the file hold, and
`os.Getenv` is called exactly when the flag variable is empty. -/
theorem store_location_precedence (w : World) (fl : Flags) (ctx : Ctx) (cfg : Config)
    (hcfg : w.ReadConfig = .ok cfg) :
    (∀ s a r, Event.fromSession s a r ∈ (runLlama w fl ctx).events →
      a = specStoreLocation (fl.store.getD "") (w.Getenv "LLAMA_OBJECT_STORE") cfg.Store) ∧
    (∀ c s, Event.newSession c (some s) ∈ (runLlama w fl ctx).events →
      ∃ r, Event.fromSession s
        (specStoreLocation (fl.store.getD "") (w.Getenv "LLAMA_OBJECT_STORE") cfg.Store) r
          ∈ (runLlama w fl ctx).events) ∧
    (fl.store.getD "" ≠ "" →
      ∀ s a r, Event.fromSession s a r ∈ (runLlama w fl ctx).events → a = fl.store.getD "") ∧
    (Event.getenv "LLAMA_OBJECT_STORE" ∈ (runLlama w fl ctx).events ↔ fl.store.getD "" = "") := by
  have hloc := cfgOf_Store w fl cfg
  have hpre : Event.getenv "LLAMA_OBJECT_STORE" ∈ preEvents fl cfg ↔ fl.store.getD "" = "" := by
    unfold preEvents
    by_cases hf : fl.store.getD "" = "" <;> simp [hf]
  have hflag : fl.store.getD "" ≠ "" →
      specStoreLocation (fl.store.getD "") (w.Getenv "LLAMA_OBJECT_STORE") cfg.Store
        = fl.store.getD "" := by
    intro hf
    simp [specStoreLocation, hf]
  rcases run_cases w fl ctx with ⟨e, h, hr⟩ | ⟨cfg1, e, h, ht, hc, hr⟩ |
    ⟨cfg1, o, e, h, ht, hs, hr⟩ | ⟨cfg1, o, s, e, h, ht, hs, hf, hr⟩ |
    ⟨cfg1, o, s, x, h, ht, hs, hf, hr⟩
  · rw [hcfg] at h; cases h
  all_goals
    rw [hcfg] at h
    cases h
    rw [hr]
    simp only [runTraceError, runSessionError, runStoreError, runDispatch, List.mem_append,
      List.mem_cons, List.mem_singleton, mem_initEvents, mem_preEvents, mem_traceEvents,
      mem_deferredEvents, mem_storeEvents, List.mem_nil_iff, hloc]
    simp
    first
      | done
      | exact ⟨fun _ _ _ _ h _ => h, fun hne _ _ _ _ h _ => h.trans (hflag hne)⟩

/-- C1, at the scenario of the specification: flag unset, environment
`s3://b/p`, file `s3://c/q`. -/
theorem store_location_precedence_witness :
    sampleWorld.ReadConfig = .ok { Region := "us-east-1", Store := "s3://c/q" } ∧
    ∃ r, Event.fromSession { id := 1 } "s3://b/p" r
      ∈ (runLlama sampleWorld sampleFlags Ctx.Background).events :=
  ⟨rfl, (store_location_precedence sampleWorld sampleFlags Ctx.Background
      { Region := "us-east-1", Store := "s3://c/q" } rfl).2.1
      { Region := some "us-west-2", LogLevel := none } { id := 1 } (by decide)⟩

/-- C2: every configuration given to `session.NewSession` has region `-region`
when that is non-empty, else the `Region` of the config file when that is
non-empty, else no region; the session is built with it whenever the trace file
is not asked for or opens; two runs that agree on `-region` and on the region
of the file build their sessions for the same region, whatever `-store`,
`LLAMA_OBJECT_STORE` and the `Store` of the file are. -/
theorem region_precedence (w : World) (fl : Flags) (ctx : Ctx) (cfg : Config)
    (hcfg : w.ReadConfig = .ok cfg) :
    (∀ c r, Event.newSession c r ∈ (runLlama w fl ctx).events →
      c.Region = specRegion (fl.region.getD "") cfg.Region) ∧
    ((fl.trace.getD "" = "" ∨ ∃ f, w.Create (fl.trace.getD "") = .ok f) →
      ∃ c r, Event.newSession c r ∈ (runLlama w fl ctx).events ∧
        c.Region = specRegion (fl.region.getD "") cfg.Region) ∧
    (∀ (w2 : World) (fl2 : Flags) (ctx2 : Ctx) (cfg2 : Config), w2.ReadConfig = .ok cfg2 →
      fl2.region = fl.region → cfg2.Region = cfg.Region →
      ∀ c r c2 r2, Event.newSession c r ∈ (runLlama w fl ctx).events →
        Event.newSession c2 r2 ∈ (runLlama w2 fl2 ctx2).events → c2.Region = c.Region) := by
  have main : ∀ (w : World) (fl : Flags) (ctx : Ctx) (cfg : Config), w.ReadConfig = .ok cfg →
      (∀ c r, Event.newSession c r ∈ (runLlama w fl ctx).events →
        c.Region = specRegion (fl.region.getD "") cfg.Region) ∧
      ((fl.trace.getD "" = "" ∨ ∃ f, w.Create (fl.trace.getD "") = .ok f) →
        ∃ c r, Event.newSession c r ∈ (runLlama w fl ctx).events ∧
          c.Region = specRegion (fl.region.getD "") cfg.Region) := by
    intro w fl ctx cfg hcfg
    have hreg := awscfgOf_Region (fl.region.getD "") (fl.debugAWS.getD false) cfg
    rcases run_cases w fl ctx with ⟨e, h, hr⟩ | ⟨cfg1, e, h, ht, hc, hr⟩ |
      ⟨cfg1, o, e, h, ht, hs, hr⟩ | ⟨cfg1, o, s, e, h, ht, hs, hf, hr⟩ |
      ⟨cfg1, o, s, x, h, ht, hs, hf, hr⟩
    · rw [hcfg] at h; cases h
    all_goals
      rw [hcfg] at h
      cases h
      rw [hr]
      simp only [runTraceError, runSessionError, runStoreError, runDispatch, List.mem_append,
        List.mem_cons, List.mem_singleton, mem_initEvents, mem_preEvents, mem_traceEvents,
        mem_deferredEvents, mem_storeEvents, List.mem_nil_iff]
      simp
      first
        | done
        | exact ⟨hreg, fun _ => hreg⟩
        | exact ⟨ht, fun f hf => by rw [hc] at hf; cases hf⟩
  refine ⟨(main w fl ctx cfg hcfg).1, (main w fl ctx cfg hcfg).2, ?_⟩
  intro w2 fl2 ctx2 cfg2 hcfg2 hfl hreg c r c2 r2 h1 h2
  rw [(main w fl ctx cfg hcfg).1 c r h1, (main w2 fl2 ctx2 cfg2 hcfg2).1 c2 r2 h2, hfl, hreg]

/-- C2, at the scenario of the specification: flag `us-west-2`, file
`us-east-1`. -/
theorem region_precedence_witness :
    sampleWorld.ReadConfig = .ok { Region := "us-east-1", Store := "s3://c/q" } ∧
    ∃ c r, Event.newSession c r ∈ (runLlama sampleWorld sampleFlags Ctx.Background).events ∧
      c.Region = some "us-west-2" :=
  ⟨rfl, (region_precedence sampleWorld sampleFlags Ctx.Background
      { Region := "us-east-1", Store := "s3://c/q" } rfl).2.1 (Or.inl rfl)⟩

/-- C7 fails as stated: with the flag, the environment variable and the file
value all empty, the resolved location is empty, and yet the run builds a
session and calls `s3store.FromSession` on the empty address before it fails. -/
theorem empty_store_location_counterexample :
    specStoreLocation (sampleFlags.store.getD "") (emptyStoreWorld.Getenv "LLAMA_OBJECT_STORE")
      "" = "" ∧
    emptyStoreWorld.ReadConfig = .ok { Region := "us-east-1", Store := "" } ∧
    ¬ (∀ c r, Event.newSession c r
        ∉ (runLlama emptyStoreWorld sampleFlags Ctx.Background).events) ∧
    Event.newSession { Region := some "us-west-2", LogLevel := none } (some { id := 1 })
      ∈ (runLlama emptyStoreWorld sampleFlags Ctx.Background).events ∧
    Event.fromSession { id := 1 } "" none
      ∈ (runLlama emptyStoreWorld sampleFlags Ctx.Background).events := by
  refine ⟨by decide, rfl, ?_, by decide, by decide⟩
  intro h
  exact h { Region := some "us-west-2", LogLevel := none } (some { id := 1 }) (by decide)

/-- C7 as amended: when the resolved location is empty, `runLlama` goes on as
for any location: once the session is built it calls `s3store.FromSession` on
the empty address; a command is dispatched only if the factory accepts the empty
address; when the factory rejects it the run ends in `log.Fatal`, after the
session was built and without any call of `subcommands.Execute`. -/
theorem empty_store_location_handed_to_factory (w : World) (fl : Flags) (ctx : Ctx)
    (cfg : Config) (hcfg : w.ReadConfig = .ok cfg)
    (hempty : specStoreLocation (fl.store.getD "") (w.Getenv "LLAMA_OBJECT_STORE") cfg.Store
      = "") :
    (∀ c s, Event.newSession c (some s) ∈ (runLlama w fl ctx).events →
      ∃ r, Event.fromSession s "" r ∈ (runLlama w fl ctx).events) ∧
    (∀ c, Event.execute c ∈ (runLlama w fl ctx).events →
      ∃ s x, w.FromSession s "" = .ok x ∧
        Event.fromSession s "" (some x) ∈ (runLlama w fl ctx).events) ∧
    (∀ s, Event.fromSession s "" none ∈ (runLlama w fl ctx).events →
      (runLlama w fl ctx).outcome = Outcome.fatal ∧
      (∃ c, Event.newSession c (some s) ∈ (runLlama w fl ctx).events) ∧
      ∀ c, Event.execute c ∉ (runLlama w fl ctx).events) := by
  have hloc := cfgOf_Store w fl cfg
  rw [hempty] at hloc
  rcases run_cases w fl ctx with ⟨e, h, hr⟩ | ⟨cfg1, e, h, ht, hc, hr⟩ |
    ⟨cfg1, o, e, h, ht, hs, hr⟩ | ⟨cfg1, o, s, e, h, ht, hs, hf, hr⟩ |
    ⟨cfg1, o, s, x, h, ht, hs, hf, hr⟩
  · rw [hcfg] at h; cases h
  all_goals
    rw [hcfg] at h
    cases h
    try rw [hloc] at hf
    rw [hr]
    simp only [runTraceError, runSessionError, runStoreError, runDispatch, List.mem_append,
      List.mem_cons, List.mem_singleton, mem_initEvents, mem_preEvents, mem_traceEvents,
      mem_deferredEvents, mem_storeEvents, List.mem_nil_iff, hloc]
    simp
  · exact hf

/-- C7 as amended, with nothing configured and a factory that rejects the empty
address: the run is fatal after the session was built. -/
theorem empty_store_location_handed_to_factory_witness :
    emptyStoreWorld.ReadConfig = .ok { Region := "us-east-1", Store := "" } ∧
    specStoreLocation (sampleFlags.store.getD "") (emptyStoreWorld.Getenv "LLAMA_OBJECT_STORE")
      "" = "" ∧
    (runLlama emptyStoreWorld sampleFlags Ctx.Background).outcome = Outcome.fatal :=
  ⟨rfl, by decide, ((empty_store_location_handed_to_factory emptyStoreWorld sampleFlags
      Ctx.Background { Region := "us-east-1", Store := "" } rfl (by decide)).2.2
      { id := 1 } (by decide)).1⟩

/-! ## The store and the runtime context (C3, C8) -/

/-- C3: when `s3store.FromSession` returned the store `x`, the final
`state.Store`, which is the store of the state attached to the context given to
`subcommands.Execute`, is `LimitConcurrency(x, N)` when the value `N` of
`-s3-concurrency` is positive and `x` itself otherwise; `store.LimitConcurrency`
is called once, on `x` with `N`, in the first case and never in the second; when
the flag is not given the store is `LimitConcurrency(x, 8)`. -/
theorem limiter_applied_iff_positive (w : World) (fl : Flags) (ctx : Ctx) (s : AwsSession)
    (a : String) (x : S3Store)
    (h : Event.fromSession s a (some x) ∈ (runLlama w fl ctx).events) :
    (fl.s3Concurrency.getD 8 > 0 → (runLlama w fl ctx).state.Store =
      some (ObjectStore.LimitConcurrency (ObjectStore.s3 x) (fl.s3Concurrency.getD 8))) ∧
    (fl.s3Concurrency.getD 8 ≤ 0 → (runLlama w fl ctx).state.Store = some (ObjectStore.s3 x)) ∧
    (∃ parent, Event.withState parent (runLlama w fl ctx).state ∈ (runLlama w fl ctx).events ∧
      Event.execute (Ctx.WithState parent (runLlama w fl ctx).state)
        ∈ (runLlama w fl ctx).events) ∧
    (∀ i n, Event.limitConcurrency i n ∈ (runLlama w fl ctx).events →
      fl.s3Concurrency.getD 8 > 0 ∧ i = some (ObjectStore.s3 x) ∧ n = fl.s3Concurrency.getD 8) ∧
    ((runLlama w fl ctx).events.countP Event.isLimitConcurrency =
      if fl.s3Concurrency.getD 8 > 0 then 1 else 0) ∧
    (fl.s3Concurrency = none → (runLlama w fl ctx).state.Store =
      some (ObjectStore.LimitConcurrency (ObjectStore.s3 x) 8)) := by
  have hnone : fl.s3Concurrency = none → fl.s3Concurrency.getD 8 = 8 := by
    intro h0; rw [h0]; rfl
  rcases run_cases w fl ctx with ⟨e, h1, hr⟩ | ⟨cfg1, e, h1, ht, hc, hr⟩ |
    ⟨cfg1, o, e, h1, ht, hs, hr⟩ | ⟨cfg1, o, s1, e, h1, ht, hs, hf, hr⟩ |
    ⟨cfg1, o, s1, x1, h1, ht, hs, hf, hr⟩
  all_goals
    rw [hr] at h ⊢
    simp only [runConfigError, runTraceError, runSessionError, runStoreError, runDispatch,
      List.mem_append, List.mem_cons, List.mem_singleton, mem_initEvents, mem_preEvents,
      mem_traceEvents, mem_deferredEvents, mem_storeEvents, List.mem_nil_iff] at h ⊢
    simp at h
  obtain ⟨rfl, rfl, rfl⟩ := h
  refine ⟨?_, ?_, ?_, ?_, ?_, ?_⟩
  · intro hn
    simp [storeOf, hn]
  · intro hn
    simp [storeOf, not_lt.mpr hn]
  · exact ⟨Ctx.NewTask ctx "llama", by simp, by simp⟩
  · intro i n
    simp
  · rcases o with _ | f <;> by_cases hf : fl.store.getD "" = "" <;>
      by_cases hn : fl.s3Concurrency.getD 8 > 0 <;>
      simp [initEvents, preEvents, traceEvents, deferredEvents, storeEvents, hf, hn,
        Event.isLimitConcurrency, List.countP_cons]
  · intro h0
    simp [storeOf, hnone h0]

/-- C3, without `-s3-concurrency`: the store is limited to 8. -/
theorem limiter_applied_iff_positive_witness :
    Event.fromSession { id := 1 } "s3://b/p" (some { id := 7 })
      ∈ (runLlama sampleWorld sampleFlags Ctx.Background).events ∧
    (runLlama sampleWorld sampleFlags Ctx.Background).state.Store =
      some (ObjectStore.LimitConcurrency (ObjectStore.s3 { id := 7 }) 8) :=
  ⟨by decide, (limiter_applied_iff_positive sampleWorld sampleFlags Ctx.Background { id := 1 }
      "s3://b/p" { id := 7 } (by decide)).2.2.2.2.2 rfl⟩

/-- C8: in a run that calls `subcommands.Execute` on `c`, the log is a part
`before`, then the one call of `cli.WithState`, then the call of `Execute`, then
a part `after`; `c` is the context that call of `cli.WithState` returned; the
attached state is the final value of `state`, its session is the one
`session.NewSession` returned and its store is the one `s3store.FromSession`
returned, bare or under `LimitConcurrency`; `before` and `after` hold no other
call of `cli.WithState`, and `after` holds no write to `state`. -/
theorem context_attached_once_before_dispatch (w : World) (fl : Flags) (ctx : Ctx) (c : Ctx)
    (h : Event.execute c ∈ (runLlama w fl ctx).events) :
    ∃ (before after : List Event) (parent : Ctx) (s : AwsSession) (x : S3Store)
      (store : ObjectStore),
      (runLlama w fl ctx).events =
        before ++ [Event.withState parent { Session := some s, Store := some store },
          Event.execute c] ++ after ∧
      c = Ctx.WithState parent { Session := some s, Store := some store } ∧
      (runLlama w fl ctx).state = { Session := some s, Store := some store } ∧
      (∃ a, Event.newSession a (some s) ∈ before) ∧
      (∃ l, Event.fromSession s l (some x) ∈ before) ∧
      (store = ObjectStore.s3 x ∨ ∃ n, store = ObjectStore.LimitConcurrency (ObjectStore.s3 x) n) ∧
      (∀ ev ∈ before ++ after, ev.isWithState = false) ∧
      (∀ ev ∈ after, ev.isStateWrite = false) ∧
      (runLlama w fl ctx).events.countP Event.isWithState = 1 := by
  rcases run_cases w fl ctx with ⟨e, h1, hr⟩ | ⟨cfg1, e, h1, ht, hc, hr⟩ |
    ⟨cfg1, o, e, h1, ht, hs, hr⟩ | ⟨cfg1, o, s1, e, h1, ht, hs, hf, hr⟩ |
    ⟨cfg1, o, s1, x1, h1, ht, hs, hf, hr⟩
  all_goals
    rw [hr] at h ⊢
    simp only [runConfigError, runTraceError, runSessionError, runStoreError, runDispatch,
      List.mem_append, List.mem_cons, List.mem_singleton, mem_initEvents, mem_preEvents,
      mem_traceEvents, mem_deferredEvents, mem_storeEvents, List.mem_nil_iff] at h
    simp at h
  subst h
  refine ⟨initEvents fl cfg1 o ++
      [Event.newSession (awscfgOf (fl.region.getD "") (fl.debugAWS.getD false) cfg1) (some s1),
       Event.setSession s1, Event.fromSession s1 (cfgOf w fl cfg1).Store (some x1)] ++
      storeEvents (fl.s3Concurrency.getD 8) x1, deferredEvents o, Ctx.NewTask ctx "llama", s1, x1,
      storeOf (fl.s3Concurrency.getD 8) x1, ?_, rfl, rfl,
      ⟨awscfgOf (fl.region.getD "") (fl.debugAWS.getD false) cfg1, by simp⟩,
      ⟨(cfgOf w fl cfg1).Store, by simp⟩, ?_, ?_, ?_, ?_⟩
  · simp [runDispatch]
  · unfold storeOf
    by_cases hn : fl.s3Concurrency.getD 8 > 0
    · exact Or.inr ⟨fl.s3Concurrency.getD 8, by simp [hn]⟩
    · exact Or.inl (by simp [hn])
  · intro ev hev
    simp only [List.mem_append, List.mem_cons, List.mem_singleton, mem_initEvents, mem_preEvents,
      mem_traceEvents, mem_deferredEvents, mem_storeEvents, List.mem_nil_iff] at hev
    rcases hev with (((((rfl | rfl | ⟨rfl, -⟩) | ⟨f, -, (rfl | rfl)⟩ | rfl | rfl) |
      rfl | rfl | rfl | hev) | rfl | ⟨-, (rfl | rfl)⟩)) | rfl | ⟨f, -, (rfl | rfl)⟩
      <;> first | rfl | cases hev
  · intro ev hev
    simp only [mem_deferredEvents] at hev
    rcases hev with rfl | ⟨f, -, (rfl | rfl)⟩ <;> rfl
  · rcases o with _ | f <;> by_cases hf0 : fl.store.getD "" = "" <;>
      by_cases hn : fl.s3Concurrency.getD 8 > 0 <;>
      simp [runDispatch, initEvents, preEvents, traceEvents, deferredEvents, storeEvents, hf0, hn,
        Event.isWithState, List.countP_cons]

/-- C8, on the sample run. -/
theorem context_attached_once_before_dispatch_witness :
    Event.execute (Ctx.WithState (Ctx.NewTask Ctx.Background "llama")
        { Session := some { id := 1 },
          Store := some (ObjectStore.LimitConcurrency (ObjectStore.s3 { id := 7 }) 8) })
      ∈ (runLlama sampleWorld sampleFlags Ctx.Background).events ∧
    (runLlama sampleWorld sampleFlags Ctx.Background).events.countP Event.isWithState = 1 := by
  refine ⟨by decide, ?_⟩
  obtain ⟨_, _, _, _, _, _, -, -, -, -, -, -, -, -, h⟩ :=
    context_attached_once_before_dispatch sampleWorld sampleFlags Ctx.Background _
      (by decide : Event.execute (Ctx.WithState (Ctx.NewTask Ctx.Background "llama")
        { Session := some { id := 1 },
          Store := some (ObjectStore.LimitConcurrency (ObjectStore.s3 { id := 7 }) 8) })
      ∈ (runLlama sampleWorld sampleFlags Ctx.Background).events)
  exact h

/-! ## Errors and exit (C4, C5, C6, C10) -/

/-- C4: a run in which reading the config file, creating the trace file,
building the session or building the store fails ends in `log.Fatal` or in the
panic of `session.Must`, and never calls `subcommands.Execute`; a run that calls
`subcommands.Execute` has read the config file, has opened the trace file if one
was asked for, and has built a session and a store; when the config file cannot
be read the log is the flag parsing, the failed read and `log.Fatalf`, nothing
else. -/
theorem fatal_errors_abort_before_dispatch (w : World) (fl : Flags) (ctx : Ctx) :
    ((Event.readConfig none ∈ (runLlama w fl ctx).events ∨
      (∃ n, Event.create n none ∈ (runLlama w fl ctx).events) ∨
      (∃ c, Event.newSession c none ∈ (runLlama w fl ctx).events) ∨
      (∃ s a, Event.fromSession s a none ∈ (runLlama w fl ctx).events)) →
      ((runLlama w fl ctx).outcome = Outcome.fatal ∨
        (runLlama w fl ctx).outcome = Outcome.panicked) ∧
      ∀ c, Event.execute c ∉ (runLlama w fl ctx).events) ∧
    (∀ e, w.ReadConfig = .error e →
      runLlama w fl ctx =
        { events := [Event.flagParse, Event.readConfig none,
                     Event.logFatal ("reading config file: " ++ e)],
          outcome := Outcome.fatal, state := { Session := none, Store := none } }) ∧
    (∀ e, fl.trace.getD "" ≠ "" → w.Create (fl.trace.getD "") = .error e →
      (runLlama w fl ctx).outcome = Outcome.fatal ∧
      ∀ ev ∈ (runLlama w fl ctx).events, (∀ c r, ev ≠ Event.newSession c r) ∧
        (∀ s a r, ev ≠ Event.fromSession s a r) ∧ (∀ c, ev ≠ Event.execute c)) ∧
    (∀ c, Event.execute c ∈ (runLlama w fl ctx).events →
      (∃ cfg, w.ReadConfig = .ok cfg) ∧
      (fl.trace.getD "" = "" ∨ ∃ f, w.Create (fl.trace.getD "") = .ok f) ∧
      (∃ a s, w.NewSession a = .ok s ∧ Event.newSession a (some s) ∈ (runLlama w fl ctx).events ∧
        ∃ l x, w.FromSession s l = .ok x ∧
          Event.fromSession s l (some x) ∈ (runLlama w fl ctx).events)) := by
  have htrace : ∀ o, TraceIs w fl o →
      (fl.trace.getD "" = "" ∨ ∃ f, w.Create (fl.trace.getD "") = .ok f) := by
    rintro o (⟨h, -⟩ | ⟨-, f, h, -⟩)
    · exact Or.inl h
    · exact Or.inr ⟨f, h⟩
  have hno : ∀ o, TraceIs w fl o → ∀ e, ¬fl.trace.getD "" = "" →
      ¬w.Create (fl.trace.getD "") = .error e := by
    rintro o (⟨h, -⟩ | ⟨-, f, h, -⟩) e hne hce
    · exact hne h
    · rw [h] at hce; cases hce
  rcases run_cases w fl ctx with ⟨e, h1, hr⟩ | ⟨cfg1, e, h1, ht, hc, hr⟩ |
    ⟨cfg1, o, e, h1, ht, hs, hr⟩ | ⟨cfg1, o, s1, e, h1, ht, hs, hf, hr⟩ |
    ⟨cfg1, o, s1, x1, h1, ht, hs, hf, hr⟩
  all_goals
    rw [hr]
    simp only [runConfigError, runTraceError, runSessionError, runStoreError, runDispatch,
      List.mem_append, List.mem_cons, List.mem_singleton, mem_initEvents, mem_preEvents,
      mem_traceEvents, mem_deferredEvents, mem_storeEvents, List.mem_nil_iff]
    simp [h1]
  · rintro e1 - - ev ((rfl | rfl | ⟨rfl, -⟩) | rfl | rfl) <;> simp
  · exact hno o ht
  · intro e1 hne hce
    exact absurd hce (hno o ht e1 hne)
  · exact ⟨hno o ht, htrace o ht, _, _, hs, ⟨rfl, rfl⟩, _, _, hf, rfl, rfl, rfl⟩

/-- C4, on a config file that cannot be read: the run is fatal after three
log entries. -/
theorem fatal_errors_abort_before_dispatch_witness :
    Event.readConfig none ∈ (runLlama brokenConfigWorld sampleFlags Ctx.Background).events ∧
    (((runLlama brokenConfigWorld sampleFlags Ctx.Background).outcome = Outcome.fatal ∨
        (runLlama brokenConfigWorld sampleFlags Ctx.Background).outcome = Outcome.panicked) ∧
      ∀ c, Event.execute c ∉ (runLlama brokenConfigWorld sampleFlags Ctx.Background).events) :=
  ⟨by decide, (fatal_errors_abort_before_dispatch brokenConfigWorld sampleFlags
      Ctx.Background).1 (Or.inl (by decide))⟩

/-- C5 fails as stated: a command that reports status 256 makes `runLlama`
return 256 and `main` call `os.Exit(256)`, and the exit status of the process
is 0, not the status the command reported. -/
theorem exit_code_truncated_counterexample :
    Event.execute (Ctx.WithState (Ctx.NewTask Ctx.Background "llama")
        { Session := some { id := 1 },
          Store := some (ObjectStore.LimitConcurrency (ObjectStore.s3 { id := 7 }) 8) })
      ∈ (runLlama wideStatusWorld sampleFlags Ctx.Background).events ∧
    (runLlama wideStatusWorld sampleFlags Ctx.Background).outcome = Outcome.returned 256 ∧
    (main wideStatusWorld sampleFlags).events =
      (runLlama wideStatusWorld sampleFlags Ctx.Background).events ++ [Event.osExit 256] ∧
    (main wideStatusWorld sampleFlags).exitCode = 0 ∧
    (main wideStatusWorld sampleFlags).exitCode ≠ 256 := by
  decide

/-- C5 as amended: when the config file is read, the trace file (if asked for)
opens, the session is built and the store is built, `runLlama` calls
`subcommands.Execute`, returns the status it reported, unchanged, and `main`
calls `os.Exit` with that same value; the exit status of the process is that
value modulo 256, which is the status the command reported exactly when that
lies in 0..255; and in every run at all, a call of `subcommands.Execute` on `c`
means that `runLlama` returns `Execute(c)` and `main` calls `os.Exit` with
it. -/
theorem exit_code_propagation (w : World) (fl : Flags) (cfg : Config) (s : AwsSession)
    (x : S3Store) (hcfg : w.ReadConfig = .ok cfg)
    (htrace : fl.trace.getD "" = "" ∨ ∃ f, w.Create (fl.trace.getD "") = .ok f)
    (hsession : w.NewSession (awscfgOf (fl.region.getD "") (fl.debugAWS.getD false) cfg) = .ok s)
    (hstore : w.FromSession s
      (specStoreLocation (fl.store.getD "") (w.Getenv "LLAMA_OBJECT_STORE") cfg.Store) = .ok x) :
    (∃ c, Event.execute c ∈ (runLlama w fl Ctx.Background).events ∧
      (runLlama w fl Ctx.Background).outcome = Outcome.returned (w.Execute c) ∧
      (main w fl).events =
        (runLlama w fl Ctx.Background).events ++ [Event.osExit (w.Execute c)] ∧
      (main w fl).exitCode = w.Execute c % 256 ∧
      ((main w fl).exitCode = w.Execute c ↔ 0 ≤ w.Execute c ∧ w.Execute c < 256)) ∧
    (∀ c, Event.execute c ∈ (runLlama w fl Ctx.Background).events →
      (runLlama w fl Ctx.Background).outcome = Outcome.returned (w.Execute c) ∧
      (main w fl).events =
        (runLlama w fl Ctx.Background).events ++ [Event.osExit (w.Execute c)] ∧
      (main w fl).exitCode = w.Execute c % 256) := by
  have ht : ∃ o, TraceIs w fl o := by
    by_cases h : fl.trace.getD "" = ""
    · exact ⟨none, Or.inl ⟨h, rfl⟩⟩
    · rcases htrace with h0 | ⟨f, hf⟩
      · exact absurd h0 h
      · exact ⟨some f, Or.inr ⟨h, f, hf, rfl⟩⟩
  obtain ⟨o, ht⟩ := ht
  rw [← cfgOf_Store] at hstore
  have hr := run_dispatch w fl Ctx.Background cfg o s x hcfg ht hsession hstore
  have hmod : ∀ n : Int, n % 256 = n ↔ 0 ≤ n ∧ n < 256 := by
    intro n
    constructor
    · intro h
      exact ⟨h ▸ Int.emod_nonneg n (by decide), h ▸ Int.emod_lt_of_pos n (by decide)⟩
    · rintro ⟨h0, h1⟩
      exact Int.emod_eq_of_lt h0 h1
  unfold main
  simp only [hr]
  simp [runDispatch, exitStatus, hmod, mem_initEvents, mem_preEvents, mem_traceEvents,
    mem_deferredEvents, mem_storeEvents]

/-- C5 as amended, on a command that reports status 3. -/
theorem exit_code_propagation_witness :
    sampleWorld.ReadConfig = .ok { Region := "us-east-1", Store := "s3://c/q" } ∧
    sampleWorld.NewSession (awscfgOf (sampleFlags.region.getD "")
      (sampleFlags.debugAWS.getD false) { Region := "us-east-1", Store := "s3://c/q" })
      = .ok { id := 1 } ∧
    sampleWorld.FromSession { id := 1 } "s3://b/p" = .ok { id := 7 } ∧
    (main sampleWorld sampleFlags).events =
      (runLlama sampleWorld sampleFlags Ctx.Background).events ++ [Event.osExit 3] ∧
    (main sampleWorld sampleFlags).exitCode = 3 := by
  refine ⟨rfl, rfl, rfl, ?_⟩
  obtain ⟨c, -, -, h, h2, -⟩ := (exit_code_propagation sampleWorld sampleFlags
    { Region := "us-east-1", Store := "s3://c/q" } { id := 1 } { id := 7 } rfl (Or.inl rfl)
    rfl rfl).1
  exact ⟨h, h2⟩

/-- C6: a run that started the trace and ends by a return or by a panic stops
the trace once and closes the file once; a run that started the trace and ends
in `log.Fatal` does neither; and with `-trace out.trace` and a store that cannot
be built, the trace is started, the run ends in `log.Fatal` with exit status 1,
and the log has no `trace.Stop` and no `Close`. -/
theorem trace_left_open_by_log_fatal :
    (∀ (w : World) (fl : Flags) (ctx : Ctx) (f : File),
      Event.traceStart f ∈ (runLlama w fl ctx).events →
      (runLlama w fl ctx).outcome ≠ Outcome.fatal →
      (runLlama w fl ctx).events.count Event.traceStop = 1 ∧
      (runLlama w fl ctx).events.count (Event.close f) = 1) ∧
    (∀ (w : World) (fl : Flags) (ctx : Ctx) (f : File),
      Event.traceStart f ∈ (runLlama w fl ctx).events →
      (runLlama w fl ctx).outcome = Outcome.fatal →
      (runLlama w fl ctx).events.count Event.traceStop = 0 ∧
      (runLlama w fl ctx).events.count (Event.close f) = 0) ∧
    (Event.traceStart { name := "out.trace" }
        ∈ (runLlama storeFailWorld traceFlags Ctx.Background).events ∧
      (runLlama storeFailWorld traceFlags Ctx.Background).outcome = Outcome.fatal ∧
      Event.traceStop ∉ (runLlama storeFailWorld traceFlags Ctx.Background).events ∧
      Event.close { name := "out.trace" }
        ∉ (runLlama storeFailWorld traceFlags Ctx.Background).events ∧
      (main storeFailWorld traceFlags).exitCode = 1) := by
  refine ⟨?_, ?_, by decide⟩
  all_goals
    intro w fl ctx f hstart hout
    rcases run_cases w fl ctx with ⟨e, h1, hr⟩ | ⟨cfg1, e, h1, ht, hc, hr⟩ |
      ⟨cfg1, o, e, h1, ht, hs, hr⟩ | ⟨cfg1, o, s1, e, h1, ht, hs, hf, hr⟩ |
      ⟨cfg1, o, s1, x1, h1, ht, hs, hf, hr⟩
    all_goals
      rw [hr] at hstart hout ⊢
      simp only [runConfigError, runTraceError, runSessionError, runStoreError, runDispatch,
        List.mem_append, List.mem_cons, List.mem_singleton, mem_initEvents, mem_preEvents,
        mem_traceEvents, mem_deferredEvents, mem_storeEvents, List.mem_nil_iff] at hstart hout
      simp at hstart hout
    all_goals
      subst hstart
      by_cases hf0 : fl.store.getD "" = "" <;> by_cases hn : fl.s3Concurrency.getD 8 > 0 <;>
        simp [runSessionError, runDispatch, runStoreError, initEvents, preEvents, traceEvents,
          deferredEvents, storeEvents, hf0, hn, List.count_cons]

/-- C10 fails as stated: there is no run in which `session.NewSession` fails
and `s3store.FromSession` is called. -/
theorem store_built_on_failed_session_counterexample :
    ¬ ∃ (w : World) (fl : Flags) (ctx : Ctx) (c : AwsConfig) (s : AwsSession) (a : String)
        (r : Option S3Store),
      Event.newSession c none ∈ (runLlama w fl ctx).events ∧
      Event.fromSession s a r ∈ (runLlama w fl ctx).events := by
  rintro ⟨w, fl, ctx, c, s, a, r, h1, h2⟩
  exact (failed_session_stops_run w fl ctx c h1).2 s a r h2

/-- C10 as amended: `session.Must` checks the session before the store is
built: a run in which `session.NewSession` fails ends in a panic without any
call of `s3store.FromSession`, and every call of `s3store.FromSession` comes
right after a successful `session.NewSession` and the write of its session to
`state.Session`, on that session. -/
theorem session_checked_before_store (w : World) (fl : Flags) (ctx : Ctx) :
    (∀ c, Event.newSession c none ∈ (runLlama w fl ctx).events →
      (runLlama w fl ctx).outcome = Outcome.panicked ∧
      ∀ s a r, Event.fromSession s a r ∉ (runLlama w fl ctx).events) ∧
    (∀ s a r, Event.fromSession s a r ∈ (runLlama w fl ctx).events →
      ∃ (before after : List Event) (c : AwsConfig),
        (runLlama w fl ctx).events =
          before ++ [Event.newSession c (some s), Event.setSession s, Event.fromSession s a r]
            ++ after ∧
        ∀ s2 a2 r2, Event.fromSession s2 a2 r2 ∉ before) := by
  refine ⟨fun c h => failed_session_stops_run w fl ctx c h, ?_⟩
  intro s a r h
  have hinit : ∀ cfg o s2 a2 r2, Event.fromSession s2 a2 r2 ∉ initEvents fl cfg o := by
    intro cfg o s2 a2 r2
    simp [mem_initEvents, mem_preEvents, mem_traceEvents]
  rcases run_cases w fl ctx with ⟨e, h1, hr⟩ | ⟨cfg1, e, h1, ht, hc, hr⟩ |
    ⟨cfg1, o, e, h1, ht, hs, hr⟩ | ⟨cfg1, o, s1, e, h1, ht, hs, hf, hr⟩ |
    ⟨cfg1, o, s1, x1, h1, ht, hs, hf, hr⟩
  all_goals
    rw [hr] at h ⊢
    simp only [runConfigError, runTraceError, runSessionError, runStoreError, runDispatch,
      List.mem_append, List.mem_cons, List.mem_singleton, mem_initEvents, mem_preEvents,
      mem_traceEvents, mem_deferredEvents, mem_storeEvents, List.mem_nil_iff] at h
    simp at h
  · obtain ⟨rfl, rfl, rfl⟩ := h
    exact ⟨initEvents fl cfg1 o,
      [Event.setStore none,
       Event.withState (Ctx.NewTask ctx "llama") { Session := some s, Store := none },
       Event.logFatal e],
      awscfgOf (fl.region.getD "") (fl.debugAWS.getD false) cfg1, by simp [runStoreError],
      hinit cfg1 o⟩
  · obtain ⟨rfl, rfl, rfl⟩ := h
    exact ⟨initEvents fl cfg1 o,
      storeEvents (fl.s3Concurrency.getD 8) x1 ++
        [Event.withState (Ctx.NewTask ctx "llama")
           { Session := some s, Store := some (storeOf (fl.s3Concurrency.getD 8) x1) },
         Event.execute (Ctx.WithState (Ctx.NewTask ctx "llama")
           { Session := some s, Store := some (storeOf (fl.s3Concurrency.getD 8) x1) })] ++
        deferredEvents o,
      awscfgOf (fl.region.getD "") (fl.debugAWS.getD false) cfg1, by simp [runDispatch],
      hinit cfg1 o⟩

/-- C10 as amended, on a run whose session cannot be built. -/
theorem session_checked_before_store_witness :
    Event.newSession { Region := some "us-west-2", LogLevel := none } none
      ∈ (runLlama sessionFailWorld sampleFlags Ctx.Background).events ∧
    (runLlama sessionFailWorld sampleFlags Ctx.Background).outcome = Outcome.panicked ∧
    ∀ s a r, Event.fromSession s a r
      ∉ (runLlama sessionFailWorld sampleFlags Ctx.Background).events :=
  ⟨by decide, (session_checked_before_store sessionFailWorld sampleFlags Ctx.Background).1
      { Region := some "us-west-2", LogLevel := none } (by decide)⟩

end Llama
